import Mathlib

set_option maxRecDepth 10000

/-!
Shallow embedding of `load_ecom_data.py`, a one-shot CSV → SQLite batch
loader for an e-commerce data set, together with proofs of the behavioural
properties claimed of it.

Modelling conventions:
* A pandas cell is a `Value`: a string, an integer, or a missing value
  (pandas `NaN` / SQL `NULL`).  Floating-point cells never influence the
  control flow of the program (they only pass through), so numeric cells
  are modelled as integers.
* A pandas `DataFrame` is an ordered column list plus rows of cells.
* The file system is an association list from path to parsed CSV content
  (`pd.read_csv` parsing itself is not the object of any property).
* The SQLite store is a map from table name to its rows (rows kept in the
  table's declared column order).  Inserting a row enforces the declared
  NOT NULL, CHECK, PRIMARY KEY and (session-enabled) FOREIGN KEY
  constraints, each failure being an integrity error, exactly the
  constraints declared by `TABLE_SCHEMAS` in the source.
* `pandas.DataFrame.to_sql` commits each table's bulk insert and rolls the
  table back on a mid-table failure, so the orchestrator's state after a
  failed run is the store as of the last fully loaded table.
-/

namespace EcomLoader

/-- A cell value: a string, an integer, or a missing value (NaN / NULL). -/
inductive Value where
  | str (s : String)
  | int (n : Int)
  | na
deriving DecidableEq

/-- pandas `astype(str)`: the textual form of a cell.  A missing value
(NaN) prints as `"nan"`. -/
def Value.pyStr : Value → String
  | .str s => s
  | .int n => toString n
  | .na => "nan"

/-- A pandas `DataFrame`: ordered column names plus rows, each row a list
of cells aligned with the column list. -/
structure DataFrame where
  columns : List String
  rows : List (List Value)
deriving DecidableEq

/-- pandas `.str.strip()`: drop whitespace from both ends of the string. -/
def pyStrip (s : String) : String :=
  ⟨((s.data.dropWhile Char.isWhitespace).reverse.dropWhile Char.isWhitespace).reverse⟩

/-- pandas `.str.upper()`: upper-case every character. -/
def pyUpper (s : String) : String :=
  ⟨s.data.map Char.toUpper⟩

/-- The dictionary passed to `.map` in `normalize_booleans`: `"TRUE"` maps
to 1, `"FALSE"` to 0, anything else to no entry (NaN). -/
def boolMap (s : String) : Option Int :=
  if s = "TRUE" then some 1 else if s = "FALSE" then some 0 else none

/-- One cell of the transformed column:
`astype(str).str.strip().str.upper().map(...).fillna(0).astype(int)`. -/
def normalizeCell (v : Value) : Value :=
  .int ((boolMap (pyUpper (pyStrip v.pyStr))).getD 0)

/-- Model of `normalize_booleans(df, column)`: a copy of `df` whose `column` cells
are replaced by their normalized form.  Reading a column that is absent
from the frame raises a `KeyError` in pandas, modelled as `.error column`;
being a pure function the input frame is returned untouched to every other
observer. -/
def normalize_booleans (df : DataFrame) (column : String) : Except String DataFrame :=
  match df.columns.findIdx? (fun c => c == column) with
  | none => .error column
  | some i =>
      .ok ⟨df.columns, df.rows.map (fun r => r.set i (normalizeCell (r.getD i .na)))⟩

/-- The errors a run can stop with: a missing CSV file
(`FileNotFoundError`), a missing column (`KeyError`) and a constraint
violation (`sqlite3.IntegrityError`, carrying the table it occurred in). -/
inductive LoadError where
  | notFound (msg : String)
  | keyError (column : String)
  | integrityError (table : String) (msg : String)
deriving DecidableEq

/-- The file system: parsed CSV content by path. -/
abbrev FileSystem := List (String × DataFrame)

def lookupFile (fs : FileSystem) (p : String) : Option DataFrame :=
  (fs.find? (fun e => e.1 == p)).map (fun e => e.2)

/-- The path `DATA_DIR / f"{name}.csv"`. -/
def csvPath (name : String) : String := "data/" ++ name ++ ".csv"

/-- Model of `load_csv(name)`: fail with `FileNotFoundError` naming the path when
the file is absent, read it otherwise, and for the `products` table
normalize the `in_stock` column. -/
def load_csv (fs : FileSystem) (name : String) : Except LoadError DataFrame :=
  match lookupFile fs (csvPath name) with
  | none => .error (.notFound ("Missing CSV: " ++ csvPath name))
  | some df =>
      if name = "products" then
        match normalize_booleans df "in_stock" with
        | .error c => .error (.keyError c)
        | .ok df2 => .ok df2
      else .ok df

/-- A column declaration: its name and whether `NOT NULL` was declared. -/
structure ColumnDef where
  name : String
  notNull : Bool
deriving DecidableEq

/-- A `FOREIGN KEY (column) REFERENCES parentTable(parentColumn)`. -/
structure ForeignKey where
  column : String
  parentTable : String
  parentColumn : String
deriving DecidableEq

/-- A `CHECK (column IN (v1, ..., vn))` constraint. -/
inductive CheckConstraint where
  | inSet (column : String) (allowed : List Value)
deriving DecidableEq

/-- One `CREATE TABLE` statement of `TABLE_SCHEMAS`, as structured data. -/
structure TableSchema where
  name : String
  columns : List ColumnDef
  primaryKey : String
  foreignKeys : List ForeignKey
  checks : List CheckConstraint
deriving DecidableEq

/-- The `CREATE TABLE customers (...)` statement. -/
def customersSchema : TableSchema :=
  { name := "customers"
    columns := [⟨"customer_id", false⟩, ⟨"name", true⟩, ⟨"email", true⟩,
                ⟨"phone", true⟩, ⟨"created_at", true⟩, ⟨"city", true⟩,
                ⟨"state", true⟩]
    primaryKey := "customer_id"
    foreignKeys := []
    checks := [] }

/-- The `CREATE TABLE products (...)` statement, with `CHECK (in_stock IN (0, 1))`. -/
def productsSchema : TableSchema :=
  { name := "products"
    columns := [⟨"product_id", false⟩, ⟨"product_name", true⟩,
                ⟨"category", true⟩, ⟨"price", true⟩, ⟨"in_stock", true⟩,
                ⟨"added_at", true⟩]
    primaryKey := "product_id"
    foreignKeys := []
    checks := [.inSet "in_stock" [.int 0, .int 1]] }

/-- The `CREATE TABLE orders (...)` statement. -/
def ordersSchema : TableSchema :=
  { name := "orders"
    columns := [⟨"order_id", false⟩, ⟨"customer_id", true⟩,
                ⟨"order_date", true⟩, ⟨"total_amount", true⟩,
                ⟨"payment_method", true⟩, ⟨"order_status", true⟩]
    primaryKey := "order_id"
    foreignKeys := [⟨"customer_id", "customers", "customer_id"⟩]
    checks := [] }

/-- The `CREATE TABLE order_items (...)` statement. -/
def orderItemsSchema : TableSchema :=
  { name := "order_items"
    columns := [⟨"item_id", false⟩, ⟨"order_id", true⟩,
                ⟨"product_id", true⟩, ⟨"quantity", true⟩,
                ⟨"item_price", true⟩]
    primaryKey := "item_id"
    foreignKeys := [⟨"order_id", "orders", "order_id"⟩,
                    ⟨"product_id", "products", "product_id"⟩]
    checks := [] }

/-- The `CREATE TABLE reviews (...)` statement. -/
def reviewsSchema : TableSchema :=
  { name := "reviews"
    columns := [⟨"review_id", false⟩, ⟨"customer_id", true⟩,
                ⟨"product_id", true⟩, ⟨"rating", true⟩,
                ⟨"comment", true⟩, ⟨"review_date", true⟩]
    primaryKey := "review_id"
    foreignKeys := [⟨"customer_id", "customers", "customer_id"⟩,
                    ⟨"product_id", "products", "product_id"⟩]
    checks := [] }

/-- The `TABLE_SCHEMAS` dictionary, in its (insertion-ordered) iteration
order. -/
def TABLE_SCHEMAS : List TableSchema :=
  [customersSchema, productsSchema, ordersSchema, orderItemsSchema, reviewsSchema]

/-- The persisted store: whether `PRAGMA foreign_keys = ON` was issued for
the session, and each table's rows (in the table's declared column
order). -/
structure DBState where
  foreignKeysOn : Bool
  tables : List (String × List (List Value))
deriving DecidableEq

def DBState.getTable (db : DBState) (t : String) : List (List Value) :=
  match db.tables.find? (fun e => e.1 == t) with
  | some e => e.2
  | none => []

def DBState.hasTable (db : DBState) (t : String) : Bool :=
  db.tables.any (fun e => e.1 == t)

def DBState.setTable (db : DBState) (t : String) (rows : List (List Value)) : DBState :=
  ⟨db.foreignKeysOn, db.tables.map (fun e => if e.1 = t then (e.1, rows) else e)⟩

/-- Column matching of `to_sql`: it matches dataframe columns to table columns by name; a table
column absent from the frame is inserted as NULL. -/
def dfLookup (cols : List String) (row : List Value) (c : String) : Value :=
  match cols.findIdx? (fun x => x == c) with
  | some i => row.getD i .na
  | none => .na

/-- A dataframe row rearranged into the table's declared column order. -/
def alignRow (ts : TableSchema) (cols : List String) (row : List Value) : List Value :=
  ts.columns.map (fun cd => dfLookup cols row cd.name)

/-- The value of a named column inside a row that is already in the
table's declared column order. -/
def TableSchema.colVal (ts : TableSchema) (row : List Value) (c : String) : Value :=
  match ts.columns.findIdx? (fun cd => cd.name == c) with
  | some i => row.getD i .na
  | none => .na

/-- SQLite `NOT NULL` enforcement over one (aligned) row. -/
def notNullOk (ts : TableSchema) (row : List Value) : Bool :=
  (ts.columns.zip row).all (fun p => !p.1.notNull || !(p.2 == Value.na))

/-- SQLite `CHECK` enforcement: a NULL operand makes the check pass. -/
def checkOk (ts : TableSchema) (row : List Value) : CheckConstraint → Bool
  | .inSet c allowed =>
      ts.colVal row c == .na || allowed.contains (ts.colVal row c)

/-- SQLite `PRIMARY KEY` uniqueness (NULL keys are not compared, matching
SQLite's treatment of non-INTEGER primary keys). -/
def pkOk (ts : TableSchema) (existing : List (List Value)) (row : List Value) : Bool :=
  ts.colVal row ts.primaryKey == .na ||
    existing.all (fun r => !(ts.colVal r ts.primaryKey == ts.colVal row ts.primaryKey))

def lookupSchema (schemas : List TableSchema) (t : String) : Option TableSchema :=
  schemas.find? (fun s => s.name == t)

/-- SQLite `FOREIGN KEY` enforcement: a NULL child value passes; otherwise
the value must occur in the parent table's referenced column. -/
def fkOk (schemas : List TableSchema) (db : DBState) (ts : TableSchema)
    (row : List Value) (fk : ForeignKey) : Bool :=
  ts.colVal row fk.column == .na ||
    match lookupSchema schemas fk.parentTable with
    | none => true
    | some ps =>
        (db.getTable fk.parentTable).any
          (fun pr => ps.colVal pr fk.parentColumn == ts.colVal row fk.column)

/-- Insert one dataframe row into a table, enforcing the table's declared
constraints; every violation is an integrity error naming the table. -/
def insertRow (schemas : List TableSchema) (db : DBState) (ts : TableSchema)
    (cols : List String) (row : List Value) : Except LoadError DBState :=
  let r := alignRow ts cols row
  if !notNullOk ts r then
    .error (.integrityError ts.name "NOT NULL constraint failed")
  else if !(ts.checks.all (checkOk ts r)) then
    .error (.integrityError ts.name "CHECK constraint failed")
  else if !pkOk ts (db.getTable ts.name) r then
    .error (.integrityError ts.name "UNIQUE constraint failed")
  else if db.foreignKeysOn && !(ts.foreignKeys.all (fkOk schemas db ts r)) then
    .error (.integrityError ts.name "FOREIGN KEY constraint failed")
  else
    .ok (db.setTable ts.name (db.getTable ts.name ++ [r]))

/-- One `to_sql(..., if_exists="append")` call: insert every dataframe row
in order; the first violation aborts (and rolls back) the whole call. -/
def insertAll (schemas : List TableSchema) (ts : TableSchema) (cols : List String)
    (db : DBState) : List (List Value) → Except LoadError DBState
  | [] => .ok db
  | r :: rs =>
      match insertRow schemas db ts cols r with
      | .error e => .error e
      | .ok db2 => insertAll schemas ts cols db2 rs

/-- The literal list the orchestrator's load loop iterates over. -/
def TABLE_ORDER : List String :=
  ["customers", "products", "orders", "order_items", "reviews"]

/-- Load one table: read (and for products normalize) its CSV, then bulk
insert it. -/
def loadTable (fs : FileSystem) (db : DBState) (name : String) :
    Except LoadError DBState :=
  match load_csv fs name with
  | .error e => .error e
  | .ok df =>
      match lookupSchema TABLE_SCHEMAS name with
      | none => .error (.integrityError name "no such table")
      | some ts => insertAll TABLE_SCHEMAS ts df.columns db df.rows

/-- Load the tables in order.  Each table's successful insert is committed
before the next file is read, so on failure the store returned is the one
as of the last fully loaded table. -/
def loadTables (fs : FileSystem) (db : DBState) :
    List String → Except LoadError Unit × DBState
  | [] => (.ok (), db)
  | t :: ts =>
      match loadTable fs db t with
      | .error e => (.error e, db)
      | .ok db2 => loadTables fs db2 ts

/-- The fresh store `main` starts from: the previous database file is
unlinked, foreign-key enforcement is enabled for the session, and the five
tables are created empty in `TABLE_SCHEMAS` order. -/
def initDB : DBState :=
  ⟨true, TABLE_SCHEMAS.map (fun ts => (ts.name, []))⟩

/-- Model of `main()`: discard any previous store (`DB_PATH.unlink`), create the
schema, load the five tables in dependency order, and on success report
each table's row count in `TABLE_SCHEMAS` iteration order.  The second
component is the store left persisted when the run ends (also on a failing
run). -/
def main (fs : FileSystem) (_prevStore : Option DBState) :
    Except LoadError (List (String × Nat)) × DBState :=
  match loadTables fs initDB TABLE_ORDER with
  | (.error e, db) => (.error e, db)
  | (.ok _, db) =>
      (.ok (TABLE_SCHEMAS.map (fun ts => (ts.name, (db.getTable ts.name).length))), db)

/-- Position of a table name in a load order (list length when absent). -/
def posIn (l : List String) (s : String) : Nat :=
  (l.findIdx? (fun x => x == s)).getD l.length

/-! ### Concrete data used to exercise the model -/

def customersCSV : DataFrame :=
  ⟨["customer_id", "name", "email", "phone", "created_at", "city", "state"],
   [[.int 1, .str "Asha", .str "a@x.com", .str "111", .str "2024-01-01",
     .str "Pune", .str "MH"]]⟩

def productsCSV : DataFrame :=
  ⟨["product_id", "product_name", "category", "price", "in_stock", "added_at"],
   [[.str "p1", .str "Pen", .str "stationery", .int 5, .str " false ",
     .str "2024-01-02"]]⟩

def ordersCSV : DataFrame :=
  ⟨["order_id", "customer_id", "order_date", "total_amount", "payment_method",
    "order_status"],
   [[.str "o1", .int 1, .str "2024-02-01", .int 9, .str "card", .str "done"]]⟩

def orderItemsCSV : DataFrame :=
  ⟨["item_id", "order_id", "product_id", "quantity", "item_price"],
   [[.str "i1", .str "o1", .str "p1", .int 2, .int 3]]⟩

def reviewsCSV : DataFrame :=
  ⟨["review_id", "customer_id", "product_id", "rating", "comment", "review_date"],
   [[.str "r1", .int 1, .str "p1", .int 5, .str "good", .str "2024-03-01"]]⟩

/-- A complete, consistent data directory. -/
def fsAll : FileSystem :=
  [(csvPath "customers", customersCSV), (csvPath "products", productsCSV),
   (csvPath "orders", ordersCSV), (csvPath "order_items", orderItemsCSV),
   (csvPath "reviews", reviewsCSV)]

def reportAll : List (String × Nat) :=
  [("customers", 1), ("products", 1), ("orders", 1), ("order_items", 1),
   ("reviews", 1)]

/-- The same data directory with `reviews.csv` absent. -/
def fsNoReviews : FileSystem :=
  [(csvPath "customers", customersCSV), (csvPath "products", productsCSV),
   (csvPath "orders", ordersCSV), (csvPath "order_items", orderItemsCSV)]

/-- An order_items file whose row references an order id that no order has. -/
def badOrderItemsCSV : DataFrame :=
  ⟨["item_id", "order_id", "product_id", "quantity", "item_price"],
   [[.str "i9", .str "o-missing", .str "p1", .int 1, .int 1]]⟩

/-- A data directory whose order_items breaks referential integrity. -/
def fsBadFK : FileSystem :=
  [(csvPath "customers", customersCSV), (csvPath "products", productsCSV),
   (csvPath "orders", ordersCSV), (csvPath "order_items", badOrderItemsCSV),
   (csvPath "reviews", reviewsCSV)]

def dfW8 : DataFrame := ⟨["a", "in_stock"], [[.str "x", .str "true"]]⟩

def dfW8n : DataFrame := ⟨["a", "in_stock"], [[.str "x", .int 1]]⟩

end EcomLoader

deriving instance DecidableEq for Except

namespace EcomLoader

/-! ### List helpers -/

theorem getD_set_eq {α : Type} (l : List α) (i : Nat) (v d : α) :
    (l.set i v).getD i d = if i < l.length then v else d := by
  by_cases h : i < l.length <;>
    simp [List.getD_eq_getElem?_getD, List.getElem?_set, h]

theorem getD_set_ne {α : Type} (l : List α) (i j : Nat) (v d : α) (h : i ≠ j) :
    (l.set i v).getD j d = l.getD j d := by
  simp [List.getD_eq_getElem?_getD, List.getElem?_set_ne h]

theorem getD_map_lt {α β : Type} (f : α → β) (l : List α) (j : Nat) (d : β) (d0 : α)
    (h : j < l.length) :
    (l.map f).getD j d = f (l.getD j d0) := by
  induction l generalizing j with
  | nil => simp at h
  | cons a t ih =>
      cases j with
      | zero => simp
      | succ n => simpa using ih n (by simpa using h)

theorem getD_mem {α : Type} (l : List α) (k : Nat) (d : α) (h : k < l.length) :
    l.getD k d ∈ l := by
  induction l generalizing k with
  | nil => simp at h
  | cons a t ih =>
      cases k with
      | zero => simp
      | succ n => simpa using Or.inr (ih n (by simpa using h))

theorem findIdx_some_of_mem {α : Type} [BEq α] [LawfulBEq α] (l : List α) (c : α)
    (h : c ∈ l) : ∃ i, l.findIdx? (fun x => x == c) = some i := by
  cases hf : l.findIdx? (fun x => x == c) with
  | some i => exact ⟨i, rfl⟩
  | none =>
      rw [List.findIdx?_eq_none_iff] at hf
      have := hf c h
      simp at this

/-! ### Store helpers -/

theorem find?_upd_self (tabs : List (String × List (List Value))) (t : String)
    (rows : List (List Value)) (h : (tabs.any fun e => e.1 == t) = true) :
    List.find? (fun e => e.1 == t)
      (tabs.map fun e => if e.1 = t then (e.1, rows) else e) = some (t, rows) := by
  induction tabs with
  | nil => simp at h
  | cons e es ih =>
      rw [List.map_cons]
      by_cases he : e.1 = t
      · rw [if_pos he, List.find?_cons_of_pos _ (by simpa using he)]
        rw [he]
      · rw [if_neg he, List.find?_cons_of_neg _ (by simpa using he)]
        apply ih
        have : (e.1 == t) = false := by simpa using he
        simpa [this] using h

theorem find?_upd_ne (tabs : List (String × List (List Value))) (t t' : String)
    (rows : List (List Value)) (h : t' ≠ t) :
    List.find? (fun e => e.1 == t')
      (tabs.map fun e => if e.1 = t then (e.1, rows) else e)
      = List.find? (fun e => e.1 == t') tabs := by
  induction tabs with
  | nil => rfl
  | cons e es ih =>
      rw [List.map_cons]
      by_cases he : e.1 = t
      · have hne : ((e.1, rows).1 == t') = false := by
          simp only [he]
          simpa using fun hc => h hc.symm
        have hne0 : (e.1 == t') = false := by
          simp only [he]
          simpa using fun hc => h hc.symm
        rw [if_pos he, List.find?_cons_of_neg _ (by simp [hne]),
            List.find?_cons_of_neg _ (by simp [hne0])]
        exact ih
      · by_cases he2 : e.1 = t'
        · rw [if_neg he, List.find?_cons_of_pos _ (by simpa using he2),
              List.find?_cons_of_pos _ (by simpa using he2)]
        · rw [if_neg he, List.find?_cons_of_neg _ (by simpa using he2),
              List.find?_cons_of_neg _ (by simpa using he2)]
          exact ih

theorem getTable_setTable_self (db : DBState) (t : String) (rows : List (List Value))
    (h : db.hasTable t = true) :
    (db.setTable t rows).getTable t = rows := by
  obtain ⟨fk, tabs⟩ := db
  simp only [DBState.hasTable] at h
  simp only [DBState.setTable, DBState.getTable]
  rw [find?_upd_self tabs t rows h]

theorem getTable_setTable_ne (db : DBState) (t t' : String) (rows : List (List Value))
    (h : t' ≠ t) :
    (db.setTable t rows).getTable t' = db.getTable t' := by
  obtain ⟨fk, tabs⟩ := db
  simp only [DBState.setTable, DBState.getTable]
  rw [find?_upd_ne tabs t t' rows h]

theorem hasTable_setTable (db : DBState) (t : String) (rows : List (List Value))
    (t' : String) :
    (db.setTable t rows).hasTable t' = db.hasTable t' := by
  obtain ⟨fk, tabs⟩ := db
  simp only [DBState.setTable, DBState.hasTable]
  induction tabs with
  | nil => rfl
  | cons e es ih =>
      rw [List.map_cons, List.any_cons, List.any_cons, ih]
      by_cases he : e.1 = t
      · rw [if_pos he]
      · rw [if_neg he]

theorem foreignKeysOn_setTable (db : DBState) (t : String) (rows : List (List Value)) :
    (db.setTable t rows).foreignKeysOn = db.foreignKeysOn := rfl

/-- The check `fkOk` only reads the store through the parent table's rows. -/
theorem fkOk_congr (schemas : List TableSchema) (db1 db2 : DBState) (ts : TableSchema)
    (row : List Value) (fk : ForeignKey)
    (h : db1.getTable fk.parentTable = db2.getTable fk.parentTable) :
    fkOk schemas db1 ts row fk = fkOk schemas db2 ts row fk := by
  unfold fkOk
  rw [h]

theorem lookupSchema_name (schemas : List TableSchema) (t : String) (ts : TableSchema)
    (h : lookupSchema schemas t = some ts) : ts.name = t := by
  have := List.find?_some h
  simpa using this

/-! ### Insertion characterization -/

theorem insertRow_ok {schemas : List TableSchema} {db : DBState} {ts : TableSchema}
    {cols : List String} {row : List Value} {db2 : DBState}
    (h : insertRow schemas db ts cols row = .ok db2) :
    notNullOk ts (alignRow ts cols row) = true
    ∧ ts.checks.all (checkOk ts (alignRow ts cols row)) = true
    ∧ (db.foreignKeysOn = true →
        ts.foreignKeys.all (fkOk schemas db ts (alignRow ts cols row)) = true)
    ∧ db2 = db.setTable ts.name (db.getTable ts.name ++ [alignRow ts cols row]) := by
  simp only [insertRow] at h
  split_ifs at h with h1 h2 h3 h4
  refine ⟨?_, ?_, ?_, ?_⟩
  · revert h1; cases notNullOk ts (alignRow ts cols row) <;> simp
  · revert h2; cases ts.checks.all (checkOk ts (alignRow ts cols row)) <;> simp
  · intro hOn
    revert h4
    rw [hOn]
    cases ts.foreignKeys.all (fkOk schemas db ts (alignRow ts cols row)) <;> simp
  · exact (Except.ok.inj h).symm

theorem insertRow_error {schemas : List TableSchema} {db : DBState} {ts : TableSchema}
    {cols : List String} {row : List Value} {e : LoadError}
    (h : insertRow schemas db ts cols row = .error e) :
    ∃ m, e = .integrityError ts.name m := by
  simp only [insertRow] at h
  split_ifs at h
  · exact ⟨_, (Except.error.inj h).symm⟩
  · exact ⟨_, (Except.error.inj h).symm⟩
  · exact ⟨_, (Except.error.inj h).symm⟩
  · exact ⟨_, (Except.error.inj h).symm⟩

theorem insertAll_frame {schemas : List TableSchema} {ts : TableSchema} {cols : List String}
    (rows : List (List Value)) :
    ∀ db db', insertAll schemas ts cols db rows = .ok db' →
      (∀ t, t ≠ ts.name → db'.getTable t = db.getTable t)
      ∧ (∀ t, db'.hasTable t = db.hasTable t)
      ∧ db'.foreignKeysOn = db.foreignKeysOn := by
  induction rows with
  | nil =>
      intro db db' h
      cases h
      exact ⟨fun _ _ => rfl, fun _ => rfl, rfl⟩
  | cons r rs ih =>
      intro db db' h
      simp only [insertAll] at h
      cases hr : insertRow schemas db ts cols r with
      | error e => rw [hr] at h; cases h
      | ok db2 =>
          rw [hr] at h
          obtain ⟨-, -, -, hdb2⟩ := insertRow_ok hr
          obtain ⟨f1, f2, f3⟩ := ih db2 db' h
          subst hdb2
          refine ⟨?_, ?_, ?_⟩
          · intro t ht
            rw [f1 t ht, getTable_setTable_ne _ _ _ _ ht]
          · intro t
            rw [f2 t, hasTable_setTable]
          · rw [f3, foreignKeysOn_setTable]

theorem insertAll_content {schemas : List TableSchema} {ts : TableSchema} {cols : List String}
    (rows : List (List Value)) :
    ∀ db db', db.hasTable ts.name = true →
      insertAll schemas ts cols db rows = .ok db' →
      db'.getTable ts.name = db.getTable ts.name ++ rows.map (alignRow ts cols)
      ∧ ∀ r ∈ rows,
          notNullOk ts (alignRow ts cols r) = true
          ∧ ts.checks.all (checkOk ts (alignRow ts cols r)) = true
          ∧ (db.foreignKeysOn = true →
              ∀ fk ∈ ts.foreignKeys, fk.parentTable ≠ ts.name →
                fkOk schemas db ts (alignRow ts cols r) fk = true) := by
  induction rows with
  | nil =>
      intro db db' _ h
      cases h
      exact ⟨by simp, by simp⟩
  | cons r rs ih =>
      intro db db' hmem h
      simp only [insertAll] at h
      cases hr : insertRow schemas db ts cols r with
      | error e => rw [hr] at h; cases h
      | ok db2 =>
          rw [hr] at h
          obtain ⟨hnn, hck, hfk, hdb2⟩ := insertRow_ok hr
          have hmem2 : db2.hasTable ts.name = true := by
            rw [hdb2, hasTable_setTable]; exact hmem
          obtain ⟨hcontent, hrows⟩ := ih db2 db' hmem2 h
          have hget2 : db2.getTable ts.name
              = db.getTable ts.name ++ [alignRow ts cols r] := by
            rw [hdb2, getTable_setTable_self _ _ _ hmem]
          have hfkOn2 : db2.foreignKeysOn = db.foreignKeysOn := by
            rw [hdb2, foreignKeysOn_setTable]
          constructor
          · rw [hcontent, hget2, List.map_cons, List.append_assoc]
            rfl
          · intro r' hr'
            rcases List.mem_cons.mp hr' with rfl | hr'
            · refine ⟨hnn, hck, ?_⟩
              intro hOn fk hfkmem _
              exact (List.all_eq_true.mp (hfk hOn)) fk hfkmem
            · obtain ⟨hnn', hck', hfk'⟩ := hrows r' hr'
              refine ⟨hnn', hck', ?_⟩
              intro hOn fk hfkmem hpt
              have hpar : db2.getTable fk.parentTable = db.getTable fk.parentTable := by
                rw [hdb2, getTable_setTable_ne _ _ _ _ hpt]
              rw [← fkOk_congr schemas db2 db ts (alignRow ts cols r') fk hpar]
              exact hfk' (by rw [hfkOn2]; exact hOn) fk hfkmem hpt

theorem insertAll_error {schemas : List TableSchema} {ts : TableSchema} {cols : List String}
    (rows : List (List Value)) :
    ∀ db e, insertAll schemas ts cols db rows = .error e →
      ∃ m, e = .integrityError ts.name m := by
  induction rows with
  | nil => intro db e h; cases h
  | cons r rs ih =>
      intro db e h
      simp only [insertAll] at h
      cases hr : insertRow schemas db ts cols r with
      | error e' =>
          rw [hr] at h
          cases h
          exact insertRow_error hr
      | ok db2 =>
          rw [hr] at h
          exact ih db2 e h

/-! ### Load characterization -/

theorem normalize_ok_shape {df df' : DataFrame} {column : String}
    (h : normalize_booleans df column = .ok df') :
    ∃ i, df.columns.findIdx? (fun c => c == column) = some i
      ∧ df' = ⟨df.columns, df.rows.map (fun r => r.set i (normalizeCell (r.getD i .na)))⟩ := by
  unfold normalize_booleans at h
  cases hf : df.columns.findIdx? (fun c => c == column) with
  | none => rw [hf] at h; cases h
  | some i =>
      rw [hf] at h
      exact ⟨i, rfl, (Except.ok.inj h).symm⟩

theorem load_csv_ok_src {fs : FileSystem} {name : String} {df : DataFrame}
    (h : load_csv fs name = .ok df) :
    ∃ f, lookupFile fs (csvPath name) = some f
      ∧ df.columns = f.columns ∧ df.rows.length = f.rows.length := by
  cases hl : lookupFile fs (csvPath name) with
  | none => simp [load_csv, hl] at h
  | some f =>
      simp only [load_csv, hl] at h
      by_cases hn : name = "products"
      · rw [if_pos hn] at h
        cases hnorm : normalize_booleans f "in_stock" with
        | error c => simp [hnorm] at h
        | ok df2 =>
            simp only [hnorm] at h
            obtain ⟨i, -, hshape⟩ := normalize_ok_shape hnorm
            cases Except.ok.inj h
            subst hshape
            exact ⟨f, rfl, rfl, by simp⟩
      · rw [if_neg hn] at h
        cases Except.ok.inj h
        exact ⟨_, rfl, rfl, rfl⟩

theorem load_csv_products_ok {fs : FileSystem} {df : DataFrame}
    (h : load_csv fs "products" = .ok df) :
    ∃ f i, lookupFile fs (csvPath "products") = some f
      ∧ f.columns.findIdx? (fun c => c == "in_stock") = some i
      ∧ df = ⟨f.columns, f.rows.map (fun r => r.set i (normalizeCell (r.getD i .na)))⟩ := by
  cases hl : lookupFile fs (csvPath "products") with
  | none => simp [load_csv, hl] at h
  | some f =>
      simp only [load_csv, hl, if_pos (rfl : "products" = "products")] at h
      cases hnorm : normalize_booleans f "in_stock" with
      | error c => simp [hnorm] at h
      | ok df2 =>
          simp only [hnorm] at h
          obtain ⟨i, hf, hshape⟩ := normalize_ok_shape hnorm
          cases Except.ok.inj h
          exact ⟨f, i, rfl, hf, hshape⟩

theorem load_csv_not_products {fs : FileSystem} {name : String} {f : DataFrame}
    (hn : name ≠ "products") (hl : lookupFile fs (csvPath name) = some f) :
    load_csv fs name = .ok f := by
  simp only [load_csv, hl, if_neg hn]

theorem loadTable_ok_elim {fs : FileSystem} {db : DBState} {name : String} {db' : DBState}
    (h : loadTable fs db name = .ok db') :
    ∃ df ts, load_csv fs name = .ok df
      ∧ lookupSchema TABLE_SCHEMAS name = some ts
      ∧ insertAll TABLE_SCHEMAS ts df.columns db df.rows = .ok db' := by
  unfold loadTable at h
  cases hl : load_csv fs name with
  | error e => rw [hl] at h; cases h
  | ok df =>
      rw [hl] at h
      cases hs : lookupSchema TABLE_SCHEMAS name with
      | none => rw [hs] at h; cases h
      | some ts =>
          rw [hs] at h
          exact ⟨df, ts, rfl, rfl, h⟩

theorem loadTables_append_ok {fs : FileSystem} (l1 l2 : List String) :
    ∀ db db1, loadTables fs db l1 = (.ok (), db1) →
      loadTables fs db (l1 ++ l2) = loadTables fs db1 l2 := by
  induction l1 with
  | nil =>
      intro db db1 h
      simp only [loadTables] at h
      obtain ⟨-, rfl⟩ := Prod.mk.inj h
      rfl
  | cons t rest ih =>
      intro db db1 h
      simp only [loadTables] at h
      rw [List.cons_append]
      simp only [loadTables]
      cases hl : loadTable fs db t with
      | error e =>
          rw [hl] at h
          exact absurd (Prod.mk.inj h).1 (by simp)
      | ok db2 =>
          rw [hl] at h
          exact ih db2 db1 h

theorem loadTables_frame {fs : FileSystem} (l : List String) :
    ∀ db res db', loadTables fs db l = (res, db') →
      (∀ t, t ∉ l → db'.getTable t = db.getTable t)
      ∧ (∀ t, db'.hasTable t = db.hasTable t)
      ∧ db'.foreignKeysOn = db.foreignKeysOn := by
  induction l with
  | nil =>
      intro db res db' h
      simp only [loadTables] at h
      obtain ⟨-, rfl⟩ := Prod.mk.inj h
      exact ⟨fun _ _ => rfl, fun _ => rfl, rfl⟩
  | cons t rest ih =>
      intro db res db' h
      simp only [loadTables] at h
      cases hl : loadTable fs db t with
      | error e =>
          rw [hl] at h
          obtain ⟨-, rfl⟩ := Prod.mk.inj h
          exact ⟨fun _ _ => rfl, fun _ => rfl, rfl⟩
      | ok db2 =>
          rw [hl] at h
          obtain ⟨df, ts, -, hs, hins⟩ := loadTable_ok_elim hl
          have hname : ts.name = t := lookupSchema_name _ _ _ hs
          obtain ⟨f1, f2, f3⟩ := insertAll_frame df.rows db db2 hins
          obtain ⟨g1, g2, g3⟩ := ih db2 res db' h
          refine ⟨?_, ?_, ?_⟩
          · intro u hu
            have hut : u ≠ t := fun hc => hu (hc ▸ List.mem_cons_self t rest)
            have hurest : u ∉ rest := fun hc => hu (List.mem_cons_of_mem t hc)
            rw [g1 u hurest, f1 u (hname ▸ hut)]
          · intro u
            rw [g2 u, f2 u]
          · rw [g3, f3]

theorem loadTables_counts {fs : FileSystem} (l : List String) :
    ∀ db db', l.Nodup → (∀ t ∈ l, db.hasTable t = true) →
      loadTables fs db l = (.ok (), db') →
      ∀ t ∈ l, ∃ f, lookupFile fs (csvPath t) = some f
        ∧ (db'.getTable t).length = (db.getTable t).length + f.rows.length := by
  induction l with
  | nil =>
      intro db db' _ _ _ t ht
      simp at ht
  | cons t0 rest ih =>
      intro db db' hnd hmem h t ht
      simp only [loadTables] at h
      cases hl : loadTable fs db t0 with
      | error e =>
          rw [hl] at h
          exact absurd (Prod.mk.inj h).1 (by simp)
      | ok db2 =>
          rw [hl] at h
          obtain ⟨df, ts, hcsv, hs, hins⟩ := loadTable_ok_elim hl
          have hname : ts.name = t0 := lookupSchema_name _ _ _ hs
          rcases List.mem_cons.mp ht with rfl | htrest
          · obtain ⟨f, hf, hcols, hlen⟩ := load_csv_ok_src hcsv
            have hmem0 : db.hasTable ts.name = true := by
              rw [hname]; exact hmem t (List.mem_cons_self t rest)
            obtain ⟨hcontent, -⟩ := insertAll_content df.rows db db2 hmem0 hins
            obtain ⟨g1, -, -⟩ := loadTables_frame rest db2 _ db' h
            have ht0rest : t ∉ rest := (List.nodup_cons.mp hnd).1
            refine ⟨f, hf, ?_⟩
            rw [hname] at hcontent
            rw [g1 t ht0rest, hcontent]
            simp [hlen]
          · have hne : t ≠ t0 := fun hc => (List.nodup_cons.mp hnd).1 (hc ▸ htrest)
            obtain ⟨fr1, fr2, -⟩ := insertAll_frame df.rows db db2 hins
            have hmem2 : ∀ u ∈ rest, db2.hasTable u = true := by
              intro u hu
              rw [fr2 u]
              exact hmem u (List.mem_cons_of_mem _ hu)
            obtain ⟨f2, hf2, hlen2⟩ :=
              ih db2 db' (List.nodup_cons.mp hnd).2 hmem2 h t htrest
            refine ⟨f2, hf2, ?_⟩
            rw [hlen2, fr1 t (by rw [hname]; exact hne)]

/-! ### Orchestrator characterization -/

theorem main_ok_elim {fs : FileSystem} {_p : Option DBState}
    {report : List (String × Nat)} {db : DBState}
    (h : main fs _p = (.ok report, db)) :
    loadTables fs initDB TABLE_ORDER = (.ok (), db)
    ∧ report = TABLE_SCHEMAS.map (fun ts => (ts.name, (db.getTable ts.name).length)) := by
  unfold main at h
  cases hlt : loadTables fs initDB TABLE_ORDER with
  | mk res db0 =>
      cases res with
      | error e =>
          rw [hlt] at h
          exact absurd (Prod.mk.inj h).1 (by simp)
      | ok u =>
          cases u
          rw [hlt] at h
          obtain ⟨h1, h2⟩ := Prod.mk.inj h
          subst h2
          exact ⟨rfl, (Except.ok.inj h1).symm⟩

theorem initDB_hasTable : ∀ t ∈ TABLE_ORDER, initDB.hasTable t = true := by decide

theorem initDB_getTable : ∀ t ∈ TABLE_ORDER, initDB.getTable t = [] := by decide

theorem initDB_fkOn : initDB.foreignKeysOn = true := rfl

theorem TABLE_ORDER_nodup : TABLE_ORDER.Nodup := by decide

theorem loadTables_ok_split {fs : FileSystem} (l1 l2 : List String) :
    ∀ db db', loadTables fs db (l1 ++ l2) = (.ok (), db') →
      ∃ db1, loadTables fs db l1 = (.ok (), db1)
        ∧ loadTables fs db1 l2 = (.ok (), db') := by
  induction l1 with
  | nil => intro db db' h; exact ⟨db, rfl, h⟩
  | cons t rest ih =>
      intro db db' h
      rw [List.cons_append] at h
      simp only [loadTables] at h ⊢
      cases hl : loadTable fs db t with
      | error e =>
          rw [hl] at h
          exact absurd (Prod.mk.inj h).1 (by simp)
      | ok db2 =>
          rw [hl] at h
          exact ih db2 db' h

theorem loadTables_single {fs : FileSystem} {db db' : DBState} {t : String}
    (h : loadTables fs db [t] = (.ok (), db')) : loadTable fs db t = .ok db' := by
  simp only [loadTables] at h
  cases hl : loadTable fs db t with
  | error e =>
      rw [hl] at h
      exact absurd (Prod.mk.inj h).1 (by simp)
  | ok db2 =>
      rw [hl] at h
      obtain ⟨-, rfl⟩ := Prod.mk.inj h
      rfl

/-! ### Facts about the normalized cell -/

theorem normalizeCell_zero_or_one (v : Value) :
    normalizeCell v = .int 0 ∨ normalizeCell v = .int 1 := by
  unfold normalizeCell boolMap
  split_ifs <;> simp

theorem normalizeCell_eq_one_iff (v : Value) :
    normalizeCell v = .int 1 ↔ pyUpper (pyStrip v.pyStr) = "TRUE" := by
  unfold normalizeCell boolMap
  split_ifs with h1 h2
  · simp [h1]
  · simp [h2]
  · simp [h1]

/-! ### Constraint extraction on the concrete schemas -/

theorem colVal_align_products (cols : List String) (row : List Value) :
    productsSchema.colVal (alignRow productsSchema cols row) "in_stock"
      = dfLookup cols row "in_stock" := rfl

theorem products_row_constraints {cols : List String} {row : List Value}
    (hnn : notNullOk productsSchema (alignRow productsSchema cols row) = true)
    (hck : productsSchema.checks.all
        (checkOk productsSchema (alignRow productsSchema cols row)) = true) :
    dfLookup cols row "in_stock" ≠ Value.na
    ∧ (dfLookup cols row "in_stock" = Value.int 0
        ∨ dfLookup cols row "in_stock" = Value.int 1) := by
  simp [notNullOk, alignRow, productsSchema, List.all_cons] at hnn hck
  simp [checkOk, TableSchema.colVal, List.contains_eq_any_beq] at hck
  obtain ⟨-, -, -, h4, -⟩ := hnn
  refine ⟨h4, ?_⟩
  rcases hck with h | h | h
  · exact absurd h h4
  · exact Or.inl h
  · exact Or.inr h

theorem orderItems_notNull_order_id {cols : List String} {row : List Value}
    (hnn : notNullOk orderItemsSchema (alignRow orderItemsSchema cols row) = true) :
    (dfLookup cols row "order_id" == Value.na) = false := by
  simp [notNullOk, alignRow, orderItemsSchema, List.all_cons] at hnn
  obtain ⟨h1, -, -, -⟩ := hnn
  simpa using h1

theorem orderItems_fk_order_id {cols : List String} {row : List Value} {db : DBState}
    (hfk : fkOk TABLE_SCHEMAS db orderItemsSchema (alignRow orderItemsSchema cols row)
        ⟨"order_id", "orders", "order_id"⟩ = true)
    (hne : (dfLookup cols row "order_id" == Value.na) = false) :
    ∃ pr ∈ db.getTable "orders",
      (ordersSchema.colVal pr "order_id" == dfLookup cols row "order_id") = true := by
  have hcv : orderItemsSchema.colVal (alignRow orderItemsSchema cols row) "order_id"
      = dfLookup cols row "order_id" := rfl
  have hls : lookupSchema TABLE_SCHEMAS "orders" = some ordersSchema := rfl
  unfold fkOk at hfk
  rw [hcv] at hfk
  simp only [hls, hne, Bool.false_or] at hfk
  exact List.any_eq_true.mp hfk

/-! ### The claims -/

/-- C1: for every tabular dataset and every column present in it,
`normalize_booleans` succeeds and replaces each row's value of that column
by: textual form, strip surrounding whitespace, upper-case, then
`"TRUE"` ↦ integer 1, `"FALSE"` ↦ integer 0, and every other value (empty
and missing included) ↦ integer 0; in particular `" false "` yields the
integer 0. -/
theorem C1_normalize_boolean_mapping (df : DataFrame) (column : String)
    (h : column ∈ df.columns) :
    ∃ i, df.columns.findIdx? (fun c => c == column) = some i
      ∧ normalize_booleans df column
          = .ok ⟨df.columns,
              df.rows.map (fun r => r.set i (normalizeCell (r.getD i .na)))⟩
      ∧ (∀ v : Value,
          normalizeCell v
            = .int (if pyUpper (pyStrip v.pyStr) = "TRUE" then 1
                    else if pyUpper (pyStrip v.pyStr) = "FALSE" then 0 else 0))
      ∧ normalizeCell (.str " false ") = .int 0
      ∧ normalizeCell (.str "") = .int 0
      ∧ normalizeCell .na = .int 0 := by
  obtain ⟨i, hi⟩ := findIdx_some_of_mem df.columns column h
  refine ⟨i, hi, ?_, ?_, by decide, by decide, by decide⟩
  · simp only [normalize_booleans, hi]
  · intro v
    unfold normalizeCell boolMap
    split_ifs <;> rfl

/-- C1 witness: the mapping at the concrete one-column frame holding
`" false "`. -/
theorem C1_witness :
    ∃ i, (["in_stock"] : List String).findIdx? (fun c => c == "in_stock") = some i
      ∧ normalize_booleans ⟨["in_stock"], [[.str " false "]]⟩ "in_stock"
          = .ok ⟨["in_stock"],
              [[Value.str " false "]].map
                (fun r => r.set i (normalizeCell (r.getD i .na)))⟩
      ∧ (∀ v : Value,
          normalizeCell v
            = .int (if pyUpper (pyStrip v.pyStr) = "TRUE" then 1
                    else if pyUpper (pyStrip v.pyStr) = "FALSE" then 0 else 0))
      ∧ normalizeCell (.str " false ") = .int 0
      ∧ normalizeCell (.str "") = .int 0
      ∧ normalizeCell .na = .int 0 :=
  C1_normalize_boolean_mapping ⟨["in_stock"], [[.str " false "]]⟩ "in_stock"
    (by decide)

/-- C8: `normalize_booleans` returns a new frame identical to the input
except the transformed column — same column list, same row count, same row
lengths, and every cell outside the transformed column's index unchanged;
being a pure function, the input frame itself is not mutated. -/
theorem C8_frame_condition (df df' : DataFrame) (column : String) (i : Nat)
    (hi : df.columns.findIdx? (fun c => c == column) = some i)
    (h : normalize_booleans df column = .ok df') :
    df'.columns = df.columns
    ∧ df'.rows.length = df.rows.length
    ∧ (∀ k, (df'.rows.getD k []).length = (df.rows.getD k []).length)
    ∧ (∀ k j, j ≠ i →
        (df'.rows.getD k []).getD j .na = (df.rows.getD k []).getD j .na) := by
  obtain ⟨i2, hi2, hshape⟩ := normalize_ok_shape h
  rw [hi] at hi2
  cases Option.some.inj hi2
  subst hshape
  refine ⟨rfl, by simp, ?_, ?_⟩
  · intro k
    by_cases hk : k < df.rows.length
    · rw [getD_map_lt (fun r => r.set i (normalizeCell (r.getD i .na)))
          df.rows k [] [] hk]
      simp [List.length_set]
    · have hk' : df.rows.length ≤ k := Nat.le_of_not_lt hk
      rw [List.getD_eq_default _ _ (by simpa using hk'),
          List.getD_eq_default _ _ hk']
  · intro k j hj
    by_cases hk : k < df.rows.length
    · rw [getD_map_lt (fun r => r.set i (normalizeCell (r.getD i .na)))
          df.rows k [] [] hk]
      exact getD_set_ne _ _ _ _ _ (fun hc => hj hc.symm)
    · have hk' : df.rows.length ≤ k := Nat.le_of_not_lt hk
      have h1 : (List.map (fun r => r.set i (normalizeCell (r.getD i Value.na)))
          df.rows).getD k [] = [] := List.getD_eq_default _ _ (by simpa using hk')
      have h2 : df.rows.getD k [] = ([] : List Value) :=
        List.getD_eq_default _ _ hk'
      rw [h1, h2]

/-- C8 witness: the frame condition evaluated at a two-column frame. -/
theorem C8_witness :
    dfW8n.columns = dfW8.columns
    ∧ (dfW8n.rows.getD 0 []).getD 0 .na = (dfW8.rows.getD 0 []).getD 0 .na :=
  ⟨(C8_frame_condition dfW8 dfW8n "in_stock" 1 (by decide) (by decide)).1,
   (C8_frame_condition dfW8 dfW8n "in_stock" 1 (by decide) (by decide)).2.2.2
     0 0 (by decide)⟩

/-- C10: `normalize_booleans` on a dataset lacking the named column fails
with a KeyError naming the column (and, being pure, leaves the input
unchanged) rather than returning a dataset. -/
theorem C10_missing_column (df : DataFrame) (column : String)
    (h : column ∉ df.columns) :
    normalize_booleans df column = .error column := by
  have hnone : df.columns.findIdx? (fun c => c == column) = none := by
    rw [List.findIdx?_eq_none_iff]
    intro x hx
    cases hbe : x == column with
    | false => rfl
    | true =>
        have hx' : x = column := by simpa using hbe
        rw [hx'] at hx
        exact absurd hx h
  simp only [normalize_booleans, hnone]

/-- C10 witness: a frame without an `in_stock` column is rejected. -/
theorem C10_witness :
    normalize_booleans ⟨["a"], [[.str "v"]]⟩ "in_stock" = .error "in_stock" :=
  C10_missing_column ⟨["a"], [[.str "v"]]⟩ "in_stock" (by decide)

/-- C6: the run ignores whatever store was persisted before (it is deleted
up front), so two successive runs over the same files — in particular a
second run starting from the store the first one left — produce identical
results, row-count report included. -/
theorem C6_repeat_run (fs : FileSystem) (prev1 prev2 : Option DBState) :
    main fs prev1 = main fs prev2
    ∧ main fs (some (main fs prev1).2) = main fs prev1 :=
  ⟨rfl, rfl⟩

/-- C9: the registry's iteration order (used to create tables and to
report counts), and the literal order tables are loaded in, are both
customers, products, orders, order_items, reviews, and every foreign key's
parent table appears strictly earlier in that order than the table that
references it. -/
theorem C9_dependency_order :
    TABLE_SCHEMAS.map (fun ts => ts.name)
        = ["customers", "products", "orders", "order_items", "reviews"]
    ∧ TABLE_ORDER = ["customers", "products", "orders", "order_items", "reviews"]
    ∧ (∀ ts ∈ TABLE_SCHEMAS, ∀ fk ∈ ts.foreignKeys,
        posIn TABLE_ORDER fk.parentTable < posIn TABLE_ORDER ts.name) := by
  decide

/-- C4: on every successful run, every table's source file exists and the
report pairs the table with exactly the number of data rows of that
file. -/
theorem C4_report_counts {fs : FileSystem} {_p : Option DBState}
    {report : List (String × Nat)} {db : DBState}
    (h : main fs _p = (.ok report, db)) :
    ∀ t ∈ TABLE_ORDER, ∃ f, lookupFile fs (csvPath t) = some f
      ∧ (t, f.rows.length) ∈ report := by
  obtain ⟨hlt, hrep⟩ := main_ok_elim h
  intro t ht
  obtain ⟨f, hf, hlen⟩ :=
    loadTables_counts TABLE_ORDER initDB db TABLE_ORDER_nodup initDB_hasTable hlt t ht
  refine ⟨f, hf, ?_⟩
  rw [initDB_getTable t ht] at hlen
  simp only [List.length_nil, Nat.zero_add] at hlen
  subst hrep
  rw [← hlen]
  simp only [TABLE_ORDER, List.mem_cons, List.not_mem_nil, or_false] at ht
  rcases ht with rfl | rfl | rfl | rfl | rfl
  · exact List.mem_map.mpr ⟨customersSchema, by simp [TABLE_SCHEMAS], rfl⟩
  · exact List.mem_map.mpr ⟨productsSchema, by simp [TABLE_SCHEMAS], rfl⟩
  · exact List.mem_map.mpr ⟨ordersSchema, by simp [TABLE_SCHEMAS], rfl⟩
  · exact List.mem_map.mpr ⟨orderItemsSchema, by simp [TABLE_SCHEMAS], rfl⟩
  · exact List.mem_map.mpr ⟨reviewsSchema, by simp [TABLE_SCHEMAS], rfl⟩

/-- C4 witness: the complete one-row data directory reports count 1 for
customers. -/
theorem C4_witness :
    ∃ f, lookupFile fsAll (csvPath "customers") = some f
      ∧ ("customers", f.rows.length) ∈ reportAll :=
  C4_report_counts
    (by decide : main fsAll none = (.ok reportAll, (main fsAll none).2))
    "customers" (by decide)

/-- C3: when reviews.csv is missing but the four earlier tables load
cleanly, the run stops with a NotFound error whose message names exactly
`data/reviews.csv`, no row-count report is produced, and the store left
behind is precisely the one committed after the first four loads. -/
theorem C3_missing_reviews {fs : FileSystem} {_p : Option DBState} {db4 : DBState}
    (hfour : loadTables fs initDB ["customers", "products", "orders", "order_items"]
        = (.ok (), db4))
    (hmissing : lookupFile fs (csvPath "reviews") = none) :
    main fs _p = (.error (.notFound ("Missing CSV: " ++ csvPath "reviews")), db4) := by
  have hsplit : TABLE_ORDER
      = ["customers", "products", "orders", "order_items"] ++ ["reviews"] := rfl
  have h2 := loadTables_append_ok
    ["customers", "products", "orders", "order_items"] ["reviews"] initDB db4 hfour
  unfold main
  rw [hsplit, h2]
  simp only [loadTables, loadTable, load_csv, hmissing]

/-- C3 witness: with reviews.csv absent from the concrete directory, the
run fails with NotFound on `data/reviews.csv` and keeps the four loaded
tables. -/
theorem C3_witness :
    main fsNoReviews none
      = (.error (.notFound ("Missing CSV: " ++ csvPath "reviews")),
         (loadTables fsNoReviews initDB
           ["customers", "products", "orders", "order_items"]).2) :=
  C3_missing_reviews
    (by decide : loadTables fsNoReviews initDB
        ["customers", "products", "orders", "order_items"]
      = (.ok (), (loadTables fsNoReviews initDB
          ["customers", "products", "orders", "order_items"]).2))
    (by decide)

/-- C7 counterexample: `products.csv` exists, yet `load_csv` does not
return the file's rows — the `" false "` in_stock cell comes back as the
integer 0. -/
theorem C7_counterexample :
    lookupFile fsAll (csvPath "products") = some productsCSV
    ∧ load_csv fsAll "products" ≠ .ok productsCSV
    ∧ load_csv fsAll "products"
        = .ok ⟨productsCSV.columns,
            [[.str "p1", .str "Pen", .str "stationery", .int 5, .int 0,
              .str "2024-01-02"]]⟩ :=
  ⟨by decide, by decide, by decide⟩

/-- C7 (amended): `load_csv` fails with a NotFound error exactly when
`data/{name}.csv` is absent, and the message names that path; an existing
file of any table other than products is returned unchanged, rows in file
order; for products the loader additionally normalizes the in_stock
column before returning (failing with a KeyError when that column is
absent).  Being pure, it has no side effects. -/
theorem C7_amended_loader (fs : FileSystem) (name : String) :
    ((∃ m, load_csv fs name = .error (.notFound m))
        ↔ lookupFile fs (csvPath name) = none)
    ∧ (lookupFile fs (csvPath name) = none →
        load_csv fs name = .error (.notFound ("Missing CSV: " ++ csvPath name)))
    ∧ (∀ f, lookupFile fs (csvPath name) = some f → name ≠ "products" →
        load_csv fs name = .ok f)
    ∧ (∀ f, lookupFile fs (csvPath name) = some f → name = "products" →
        load_csv fs name
          = match normalize_booleans f "in_stock" with
            | .error c => .error (.keyError c)
            | .ok d => .ok d) := by
  refine ⟨⟨?_, ?_⟩, ?_, ?_, ?_⟩
  · rintro ⟨m, hm⟩
    cases hl : lookupFile fs (csvPath name) with
    | none => rfl
    | some f =>
        exfalso
        simp only [load_csv, hl] at hm
        by_cases hn : name = "products"
        · rw [if_pos hn] at hm
          cases hnorm : normalize_booleans f "in_stock" with
          | error c => simp [hnorm] at hm
          | ok d => simp [hnorm] at hm
        · rw [if_neg hn] at hm
          simp at hm
  · intro hmiss
    simp only [load_csv, hmiss]
    exact ⟨_, rfl⟩
  · intro hmiss
    simp only [load_csv, hmiss]
  · intro f hf hn
    exact load_csv_not_products hn hf
  · intro f hf hn
    subst hn
    simp only [load_csv, hf, if_pos (rfl : "products" = "products"), if_true]

/-- C7 witness: the amended loader contract applied to the customers
file. -/
theorem C7_witness : load_csv fsAll "customers" = .ok customersCSV :=
  (C7_amended_loader fsAll "customers").2.2.1 customersCSV (by decide) (by decide)

/-- C2: after every successful run the products table holds one row per
source data row, each stored in_stock value is the integer 0 or 1, and it
is 1 exactly when the trimmed, upper-cased textual form of that row's
source in_stock value was the literal "TRUE". -/
theorem C2_in_stock_invariant {fs : FileSystem} {_p : Option DBState}
    {report : List (String × Nat)} {db : DBState}
    (h : main fs _p = (.ok report, db)) :
    ∃ pf i, lookupFile fs (csvPath "products") = some pf
      ∧ pf.columns.findIdx? (fun c => c == "in_stock") = some i
      ∧ (db.getTable "products").length = pf.rows.length
      ∧ ∀ j, j < pf.rows.length →
          (productsSchema.colVal ((db.getTable "products").getD j []) "in_stock"
              = .int 0
            ∨ productsSchema.colVal ((db.getTable "products").getD j []) "in_stock"
              = .int 1)
          ∧ (productsSchema.colVal ((db.getTable "products").getD j []) "in_stock"
              = .int 1
            ↔ pyUpper (pyStrip ((pf.rows.getD j []).getD i Value.na).pyStr)
              = "TRUE") := by
  obtain ⟨hlt, -⟩ := main_ok_elim h
  have hsplit : TABLE_ORDER
      = ["customers"] ++ (["products"] ++ ["orders", "order_items", "reviews"]) := rfl
  rw [hsplit] at hlt
  obtain ⟨db1, hc, hrest⟩ := loadTables_ok_split ["customers"] _ initDB db hlt
  obtain ⟨db2, hp, hrest2⟩ := loadTables_ok_split ["products"] _ db1 db hrest
  have hpt : loadTable fs db1 "products" = .ok db2 := loadTables_single hp
  obtain ⟨df, ts, hcsv, hs, hins⟩ := loadTable_ok_elim hpt
  have hts : ts = productsSchema := by
    have hx : lookupSchema TABLE_SCHEMAS "products" = some productsSchema := rfl
    rw [hx] at hs
    exact (Option.some.inj hs).symm
  subst hts
  obtain ⟨pf, i, hpf, hfidx, hdf⟩ := load_csv_products_ok hcsv
  rw [hdf] at hins
  obtain ⟨g1, g2, -⟩ := loadTables_frame ["customers"] initDB _ db1 hc
  have hhas1 : db1.hasTable "products" = true := by
    rw [g2]
    exact initDB_hasTable "products" (by decide)
  have hempty1 : db1.getTable "products" = [] := by
    rw [g1 "products" (by decide)]
    exact initDB_getTable "products" (by decide)
  obtain ⟨hcontent, hrows⟩ := insertAll_content _ db1 db2 hhas1 hins
  obtain ⟨k1, -, -⟩ :=
    loadTables_frame ["orders", "order_items", "reviews"] db2 _ db hrest2
  have hfinal : db.getTable "products"
      = (pf.rows.map (fun r => r.set i (normalizeCell (r.getD i .na)))).map
          (alignRow productsSchema pf.columns) := by
    rw [k1 "products" (by decide)]
    rw [show productsSchema.name = "products" from rfl] at hcontent
    rw [hcontent, hempty1, List.nil_append]
  refine ⟨pf, i, hpf, hfidx, ?_, ?_⟩
  · rw [hfinal]
    simp
  · intro j hj
    have hrowj : (db.getTable "products").getD j []
        = alignRow productsSchema pf.columns
            ((pf.rows.getD j []).set i
              (normalizeCell ((pf.rows.getD j []).getD i .na))) := by
      rw [hfinal,
        getD_map_lt (alignRow productsSchema pf.columns) _ j [] [] (by simpa using hj),
        getD_map_lt (fun r => r.set i (normalizeCell (r.getD i .na))) pf.rows j [] [] hj]
    have hv : productsSchema.colVal ((db.getTable "products").getD j []) "in_stock"
        = dfLookup pf.columns
            ((pf.rows.getD j []).set i
              (normalizeCell ((pf.rows.getD j []).getD i .na))) "in_stock" := by
      rw [hrowj]
      exact colVal_align_products _ _
    have hdfl : dfLookup pf.columns
        ((pf.rows.getD j []).set i
          (normalizeCell ((pf.rows.getD j []).getD i .na))) "in_stock"
        = ((pf.rows.getD j []).set i
            (normalizeCell ((pf.rows.getD j []).getD i .na))).getD i .na := by
      simp only [dfLookup, hfidx]
    by_cases hir : i < (pf.rows.getD j []).length
    · have hval : ((pf.rows.getD j []).set i
          (normalizeCell ((pf.rows.getD j []).getD i .na))).getD i .na
          = normalizeCell ((pf.rows.getD j []).getD i .na) := by
        rw [getD_set_eq, if_pos hir]
      rw [hv, hdfl, hval]
      exact ⟨normalizeCell_zero_or_one _, normalizeCell_eq_one_iff _⟩
    · exfalso
      have hmemrow : (pf.rows.getD j []).set i
          (normalizeCell ((pf.rows.getD j []).getD i .na))
          ∈ (DataFrame.mk pf.columns
              (pf.rows.map (fun r => r.set i (normalizeCell (r.getD i .na))))).rows :=
        List.mem_map.mpr ⟨pf.rows.getD j [], getD_mem pf.rows j [] hj, rfl⟩
      have hnn := (hrows _ hmemrow).1
      obtain ⟨hne, -⟩ := products_row_constraints hnn (hrows _ hmemrow).2.1
      have hna : dfLookup pf.columns
          ((pf.rows.getD j []).set i
            (normalizeCell ((pf.rows.getD j []).getD i .na))) "in_stock" = .na := by
        rw [hdfl, getD_set_eq, if_neg hir]
      exact hne hna

/-- C2 witness: the invariant evaluated on the full concrete run, row 0 of
products (source value " false ", stored value 0, so not 1). -/
theorem C2_witness :
    ∃ pf i, lookupFile fsAll (csvPath "products") = some pf
      ∧ pf.columns.findIdx? (fun c => c == "in_stock") = some i
      ∧ (((main fsAll none).2).getTable "products").length = pf.rows.length := by
  obtain ⟨pf, i, h1, h2, h3, -⟩ :=
    C2_in_stock_invariant
      (by decide : main fsAll none = (.ok reportAll, (main fsAll none).2))
  exact ⟨pf, i, h1, h2, h3⟩

/-- C5: if the three earlier tables load cleanly (foreign keys being
enabled for the session) and order_items.csv contains a row whose
order_id value appears in no row of orders.csv, the run stops with an
integrity error on the order_items table — so no row-count report is
produced — leaving the store as committed after the first three loads. -/
theorem C5_fk_violation {fs : FileSystem} {_p : Option DBState} {db3 : DBState}
    {oif odf : DataFrame} {k : Nat}
    (h3 : loadTables fs initDB ["customers", "products", "orders"] = (.ok (), db3))
    (hoi : lookupFile fs (csvPath "order_items") = some oif)
    (hord : lookupFile fs (csvPath "orders") = some odf)
    (hk : k < oif.rows.length)
    (hbad : ∀ r ∈ odf.rows,
        dfLookup odf.columns r "order_id"
          ≠ dfLookup oif.columns (oif.rows.getD k []) "order_id") :
    ∃ m, main fs _p = (.error (.integrityError "order_items" m), db3) := by
  have hsplit3 : (["customers", "products", "orders"] : List String)
      = ["customers", "products"] ++ ["orders"] := rfl
  rw [hsplit3] at h3
  obtain ⟨db2o, h2o, hordload⟩ :=
    loadTables_ok_split ["customers", "products"] ["orders"] initDB db3 h3
  have hot : loadTable fs db2o "orders" = .ok db3 := loadTables_single hordload
  obtain ⟨dfo, tso, hcsvo, hso, hinso⟩ := loadTable_ok_elim hot
  have htso : tso = ordersSchema := by
    have hx : lookupSchema TABLE_SCHEMAS "orders" = some ordersSchema := rfl
    rw [hx] at hso
    exact (Option.some.inj hso).symm
  subst htso
  have hdfo : odf = dfo := by
    have hy := load_csv_not_products
      (by decide : ("orders" : String) ≠ "products") hord
    rw [hy] at hcsvo
    exact Except.ok.inj hcsvo
  subst hdfo
  obtain ⟨p1, p2, p3⟩ := loadTables_frame ["customers", "products"] initDB _ db2o h2o
  have hhas2o : db2o.hasTable "orders" = true := by
    rw [p2]
    exact initDB_hasTable "orders" (by decide)
  have hempty2o : db2o.getTable "orders" = [] := by
    rw [p1 "orders" (by decide)]
    exact initDB_getTable "orders" (by decide)
  obtain ⟨hco, -⟩ := insertAll_content _ db2o db3 hhas2o hinso
  have horders_content : db3.getTable "orders"
      = odf.rows.map (alignRow ordersSchema odf.columns) := by
    rw [show ordersSchema.name = "orders" from rfl] at hco
    rw [hco, hempty2o, List.nil_append]
  -- facts preserved across the three loads
  rw [← hsplit3] at h3
  obtain ⟨q1, q2, q3⟩ :=
    loadTables_frame ["customers", "products", "orders"] initDB _ db3 h3
  have hfkOn3 : db3.foreignKeysOn = true := by
    rw [q3]
    exact initDB_fkOn
  have hhas3 : db3.hasTable "order_items" = true := by
    rw [q2]
    exact initDB_hasTable "order_items" (by decide)
  -- loading order_items must fail with an integrity error
  have horder_fail : ∃ m, loadTable fs db3 "order_items"
      = .error (.integrityError "order_items" m) := by
    cases hlt2 : loadTable fs db3 "order_items" with
    | ok db4 =>
        exfalso
        obtain ⟨df2, ts2, hcsv2, hs2, hins2⟩ := loadTable_ok_elim hlt2
        have hts2 : ts2 = orderItemsSchema := by
          have hx : lookupSchema TABLE_SCHEMAS "order_items"
              = some orderItemsSchema := rfl
          rw [hx] at hs2
          exact (Option.some.inj hs2).symm
        subst hts2
        have hdf2 : oif = df2 := by
          have hy := load_csv_not_products
            (by decide : ("order_items" : String) ≠ "products") hoi
          rw [hy] at hcsv2
          exact Except.ok.inj hcsv2
        subst hdf2
        obtain ⟨-, hrows2⟩ := insertAll_content _ db3 db4 hhas3 hins2
        obtain ⟨hnn2, -, hfk2⟩ := hrows2 _ (getD_mem oif.rows k [] hk)
        have hfkok := hfk2 hfkOn3 ⟨"order_id", "orders", "order_id"⟩
          (by decide) (by decide)
        have hne2 : (dfLookup oif.columns (oif.rows.getD k []) "order_id"
            == Value.na) = false := orderItems_notNull_order_id hnn2
        obtain ⟨pr, hprmem, hpreq⟩ := orderItems_fk_order_id hfkok hne2
        rw [horders_content] at hprmem
        obtain ⟨r0, hr0, rfl⟩ := List.mem_map.mp hprmem
        have hcv0 : ordersSchema.colVal (alignRow ordersSchema odf.columns r0)
            "order_id" = dfLookup odf.columns r0 "order_id" := rfl
        rw [hcv0] at hpreq
        exact hbad r0 hr0 (by simpa using hpreq)
    | error e =>
        have hlt2' := hlt2
        have hy := load_csv_not_products
          (by decide : ("order_items" : String) ≠ "products") hoi
        simp only [loadTable, hy,
          show lookupSchema TABLE_SCHEMAS "order_items" = some orderItemsSchema
            from rfl] at hlt2
        obtain ⟨m, hm⟩ := insertAll_error oif.rows db3 e hlt2
        refine ⟨m, ?_⟩
        rw [hm]
        rfl
  obtain ⟨m, hm⟩ := horder_fail
  refine ⟨m, ?_⟩
  have hsplit : TABLE_ORDER
      = ["customers", "products", "orders"] ++ ["order_items", "reviews"] := rfl
  have happ := loadTables_append_ok
    ["customers", "products", "orders"] ["order_items", "reviews"] initDB db3 h3
  unfold main
  rw [hsplit, happ]
  simp only [loadTables, hm]

/-- C5 witness: the concrete directory whose order_items row references a
missing order id makes the run stop with an order_items integrity
error. -/
theorem C5_witness :
    ∃ m, main fsBadFK none
      = (.error (.integrityError "order_items" m),
         (loadTables fsBadFK initDB ["customers", "products", "orders"]).2) :=
  @C5_fk_violation fsBadFK none
    (loadTables fsBadFK initDB ["customers", "products", "orders"]).2
    badOrderItemsCSV ordersCSV 0
    (by decide) (by decide) (by decide) (by decide) (by decide)

end EcomLoader
